import Mathlib

/-!
# Verification of the Zettlr in-place table rendering plugin

This development embeds the CodeMirror plugin `markdownRenderTables`
(and the companion `onBlur` write-back closure and
`markdownInsertTable` command) from
`src/source/win-main/EditorPane.vue` into Lean 4 and proves / refutes
the specified properties of the table-span detector, the span
validator and the table instance manager.

The heading regular expression `getTableHeadingRE` is imported by the
plugin from a module that is not part of the sources under
verification; its only observable in the plugin is *which of the three
capture alternatives matched* a given line (`match[1]` simple,
`match[2]` grid, `match[3]` pipe — mutually exclusive alternatives of
one alternation).  We therefore abstract it as an environment
parameter `headingMatch : String → Option TableType`.  Likewise the
CodeMirror accessors (`getModeAt`, `getCursor`, `findMarks`) become
environment parameters, and the marker index is kept at line
granularity (the plugin always marks whole lines, from `(firstLine,0)`
to `(lastLine, length)`).
-/

namespace TableRender

/-- The three table dialects, identified with the three capture
alternatives of the heading pattern: alternative 1 ↦ `simple`,
alternative 2 ↦ `grid`, alternative 3 ↦ `pipe`. -/
inductive TableType where
  | simple
  | grid
  | pipe
deriving DecidableEq, Repr

/-- A detected candidate span: inclusive line range plus dialect
(`firstLine`, `lastLine`, `potentialTableType` in the source). -/
structure Span where
  first : Nat
  last : Nat
  ttype : TableType
deriving DecidableEq, Repr

/-- The mode name the plugin requires: `'markdown-zkn'`. -/
def mdMode : String := "markdown-zkn"

/-- `line.trim() === ''` in the source: every character of the line
is whitespace.  (Stated over the character list so that the kernel can
evaluate it.) -/
def blank (s : String) : Bool := s.data.all (fun c => c.isWhitespace)

/-- `/^-+$/.test(s)`: one or more dashes and nothing else. -/
def allDashes (s : String) : Bool :=
  !s.data.isEmpty && s.data.all (fun c => c = '-')

/-- The environment an invocation of `markdownRenderTables` runs in:
the document lines, the CodeMirror accessors, the viewport, and the
outcome of `fromMarkdown` (which either returns a table or throws)
abstracted as a Boolean on the span. -/
structure Env where
  /-- The document, as `cm.getLine` indexed from 0; `cm.lineCount()`
  is `doc.length`. -/
  doc : List String
  /-- `cm.getModeAt({line, ch}).name`. -/
  modeAt : Nat → Nat → String
  /-- Which capture alternative of `tableHeadingRE` matches a line
  (`none` = the regex does not match / no alternative captured). -/
  headingMatch : String → Option TableType
  /-- `cm.getCursor('from').line`. -/
  cursorLine : Nat
  /-- Line ranges of the text markers present before the pass
  (`cm.doc.findMarks` consults these plus the markers the pass adds). -/
  initMarks : List (Nat × Nat)
  /-- Whether `fromMarkdown` succeeds on the span
  `firstLine, lastLine, dialect` (false = it raises an error). -/
  constructOk : Nat → Nat → TableType → Bool
  /-- `cm.getViewport().from`. -/
  vfrom : Nat
  /-- `cm.getViewport().to`; the scan runs for `vfrom ≤ i < vto`. -/
  vto : Nat

/-- `cm.getLine i` (undefined beyond the last line). -/
def Env.getLine (env : Env) (i : Nat) : Option String := env.doc.get? i

/-- Total variant of `Env.getLine` used where the source reads a line
it has already established to exist. -/
def Env.lineD (env : Env) (i : Nat) : String := (env.doc.get? i).getD ""

/-- `i === 0 || cm.getLine(i - 1).trim() === ''` — the headless-table
test shared by the simple and pipe branches. -/
def Env.prevBlankOrFirst (env : Env) (i : Nat) : Bool :=
  i == 0 || blank (env.lineD (i - 1))

/-- Fuel-indexed helper for `firstBlankFrom`; the fuel is always
instantiated with `doc.length - start`, which makes the two guards
coincide. -/
def firstBlankFromAux (doc : List String) : Nat → Nat → Option Nat
  | 0, _ => none
  | fuel + 1, start =>
    if h : start < doc.length then
      if blank (doc.get ⟨start, h⟩) then some start
      else firstBlankFromAux doc fuel (start + 1)
    else none

/-- The scan `for (j = start; j < lineCount; j++) if blank then
lastLine = j - 1` used by the headed-simple, grid and pipe branches:
index of the first blank line at or after `start`, if any. -/
def firstBlankFrom (doc : List String) (start : Nat) : Option Nat :=
  firstBlankFromAux doc (doc.length - start) start

/-- One-step unfolding of `firstBlankFrom`, matching the source loop
body. -/
theorem firstBlankFrom_eq (doc : List String) (start : Nat) :
    firstBlankFrom doc start =
      (if h : start < doc.length then
        if blank (doc.get ⟨start, h⟩) then some start
        else firstBlankFrom doc (start + 1)
      else none) := by
  by_cases h : start < doc.length
  · rw [dif_pos h]
    unfold firstBlankFrom
    have hk : doc.length - start = (doc.length - (start + 1)) + 1 := by omega
    rw [hk, firstBlankFromAux, dif_pos h]
  · rw [dif_neg h]
    unfold firstBlankFrom
    have hk : doc.length - start = 0 := by omega
    rw [hk]
    rfl

/-- Fuel-indexed helper for `simpleEndFrom`. -/
def simpleEndFromAux (env : Env) : Nat → Nat → Option Nat
  | 0, _ => none
  | fuel + 1, start =>
    if h : start < env.doc.length then
      let l := env.doc.get ⟨start, h⟩
      if blank l then none
      else if env.headingMatch l = some TableType.simple then some start
      else simpleEndFromAux env fuel (start + 1)
    else none

/-- The headless-simple scan `for (j = start; j < lineCount; j++)`:
break with no result on a blank line, break with `some j` on the first
line whose heading match is alternative 1 (`m !== null && m[1]`),
otherwise keep scanning. -/
def simpleEndFrom (env : Env) (start : Nat) : Option Nat :=
  simpleEndFromAux env (env.doc.length - start) start

/-- One-step unfolding of `simpleEndFrom`, matching the source loop
body. -/
theorem simpleEndFrom_eq (env : Env) (start : Nat) :
    simpleEndFrom env start =
      (if h : start < env.doc.length then
        let l := env.doc.get ⟨start, h⟩
        if blank l then none
        else if env.headingMatch l = some TableType.simple then some start
        else simpleEndFrom env (start + 1)
      else none) := by
  by_cases h : start < env.doc.length
  · rw [dif_pos h]
    unfold simpleEndFrom
    have hk : env.doc.length - start = (env.doc.length - (start + 1)) + 1 := by omega
    rw [hk, simpleEndFromAux, dif_pos h]
  · rw [dif_neg h]
    unfold simpleEndFrom
    have hk : env.doc.length - start = 0 := by omega
    rw [hk]
    rfl

/-- The per-line candidate computation of `markdownRenderTables`
(source lines 172–246): regex dispatch on the three alternatives and
the per-dialect boundary scans, yielding `firstLine`/`lastLine` and
the dialect when both get set. -/
def candidateAt (env : Env) (i : Nat) : Option Span :=
  match env.getLine i with
  | none => none
  | some line =>
    match env.headingMatch line with
    | none => none
    | some TableType.simple =>
      -- Group 1: simple table.
      match env.getLine (i + 1) with
      | none => none
      | some nl =>
        if blank nl then none
        else if env.prevBlankOrFirst i then
          -- headless simple table
          match simpleEndFrom env (i + 1) with
          | none => none
          | some j => some ⟨i, j, TableType.simple⟩
        else
          -- headed simple table
          match firstBlankFrom env.doc i with
          | none => none
          | some b => some ⟨i - 1, b - 1, TableType.simple⟩
    | some TableType.grid =>
      -- Group 2: grid table.
      match firstBlankFrom env.doc (i + 1) with
      | none => none
      | some b => some ⟨i, b - 1, TableType.grid⟩
    | some TableType.pipe =>
      -- Group 3: pipe table; needs a header row above.
      if env.prevBlankOrFirst i then none
      else
        match firstBlankFrom env.doc i with
        | none => none
        | some b => some ⟨i - 1, b - 1, TableType.pipe⟩

/-- A detected candidate at `i`: the mode gate at `(i, 0)` (source
line 160) followed by `candidateAt` and the
`lastLine === undefined || firstLine === undefined ||
firstLine === lastLine` filter (source line 249). -/
def detectAt (env : Env) (i : Nat) : Option Span :=
  if env.modeAt i 0 ≠ mdMode then none
  else
    match candidateAt env i with
    | none => none
    | some s => if s.first = s.last then none else some s

/-- Whether a marker range overlaps the query range
`(first,0)–(last, lineLength)` of `cm.doc.findMarks`, at line
granularity. -/
def marksOverlap (m : Nat × Nat) (first last : Nat) : Bool :=
  decide (m.1 ≤ last) && decide (first ≤ m.2)

/-- `cm.doc.findMarks(curFrom, curTo).length > 0`. -/
def hasMark (marks : List (Nat × Nat)) (first last : Nat) : Bool :=
  marks.any (fun m => marksOverlap m first last)

/-- The Setext-heading guard (source line 303):
`potentialTableType === 'simple' && markdownTable.length > 2 &&
/^-+$/.test(markdownTable[1])`.  `markdownTable.length` is
`last - first + 1` and `markdownTable[1]` is the line `first + 1`. -/
def setextGuard (env : Env) (s : Span) : Bool :=
  decide (s.ttype = TableType.simple) && decide (s.first + 2 ≤ s.last)
    && allDashes (env.lineD (s.first + 1))

/-- What one loop iteration does with the candidate at `i` (if any),
given the markers currently in the document. -/
inductive StepOut where
  /-- No detected candidate at `i` (mode gate, no regex match, no
  boundary, or degenerate span): the loop moves to `i + 1`. -/
  | noCand
  /-- A candidate was detected but the validator (cursor, marker
  overlap, boundary modes) rejected it; the loop resumes after
  `s.last`. -/
  | rejected (s : Span)
  /-- The candidate passed the validator but the Setext-heading guard
  skipped it. -/
  | guarded (s : Span)
  /-- The candidate passed the validator and the guard but
  `fromMarkdown` raised; the `catch` continues the loop. -/
  | failed (s : Span)
  /-- The candidate was fully converted: `fromMarkdown` succeeded, a
  text marker was applied and the table pushed onto the registry. -/
  | converted (s : Span)
deriving DecidableEq, Repr

/-- One loop iteration of `markdownRenderTables` at index `i` (source
lines 160–364), with the checks in source order: detection, cursor
intrusion, `findMarks`, boundary modes, Setext guard, construction. -/
def step (env : Env) (i : Nat) (marks : List (Nat × Nat)) : StepOut :=
  match detectAt env i with
  | none => StepOut.noCand
  | some s =>
    if s.first ≤ env.cursorLine ∧ env.cursorLine ≤ s.last then
      StepOut.rejected s
    else if hasMark marks s.first s.last then
      StepOut.rejected s
    else if env.modeAt s.first 0 ≠ mdMode ∨ env.modeAt s.last 0 ≠ mdMode then
      StepOut.rejected s
    else if setextGuard env s then
      StepOut.guarded s
    else if env.constructOk s.first s.last s.ttype then
      StepOut.converted s
    else
      StepOut.failed s

/-- Observables of one pass: the spans that passed the validator, the
spans whose construction was attempted (reached `fromMarkdown`), and
the spans actually converted (marker applied, table registered). -/
structure PassResult where
  validated : List Span
  attempted : List Span
  converted : List Span
deriving DecidableEq, Repr

/-- The empty pass result. -/
def PassResult.empty : PassResult := ⟨[], [], []⟩

/-- The scan loop `for (let i = viewport.from; i < viewport.to; i++)`
with the in-body jump `i = lastLine` (so the next iteration starts at
`lastLine + 1`).  `fuel` bounds the number of iterations; since every
iteration advances `i` by at least one, `vto - vfrom` fuel makes the
fuel guard and the `i < vto` guard coincide. -/
def scanFrom (env : Env) : Nat → Nat → List (Nat × Nat) → PassResult
  | 0, _, _ => PassResult.empty
  | fuel + 1, i, marks =>
    if i < env.vto then
      match step env i marks with
      | StepOut.noCand => scanFrom env fuel (i + 1) marks
      | StepOut.rejected s => scanFrom env fuel (s.last + 1) marks
      | StepOut.guarded s =>
        let r := scanFrom env fuel (s.last + 1) marks
        { r with validated := s :: r.validated }
      | StepOut.failed s =>
        let r := scanFrom env fuel (s.last + 1) marks
        { r with validated := s :: r.validated, attempted := s :: r.attempted }
      | StepOut.converted s =>
        let r := scanFrom env fuel (s.last + 1) ((s.first, s.last) :: marks)
        { validated := s :: r.validated,
          attempted := s :: r.attempted,
          converted := s :: r.converted }
    else PassResult.empty

/-- One full invocation of `markdownRenderTables`. -/
def runPass (env : Env) : PassResult :=
  scanFrom env (env.vto - env.vfrom) env.vfrom env.initMarks

/-! ## The table instance manager: write-back (`onBlur`) -/

/-- A live table instance as the write-back closure sees it:
an identity and the serialization `getMarkdownTable()` returns
(which carries a trailing line terminator). -/
structure TableInst where
  id : Nat
  md : String
deriving DecidableEq, Repr

/-- JavaScript `Array.prototype.indexOf`: the first index of the
element, or `-1`. -/
def jsIndexOf : List TableInst → TableInst → Int
  | [], _ => -1
  | x :: xs, a =>
    if x = a then 0
    else
      let r := jsIndexOf xs a
      if r = -1 then -1 else r + 1

/-- JavaScript `Array.prototype.splice(k, 1)`: a negative `k` counts
from the end (clamped at 0), and the element at the resulting index is
removed (no-op when the index is past the end). -/
def jsSplice1 (l : List TableInst) (k : Int) : List TableInst :=
  let start : Nat := if k < 0 then ((l.length : Int) + k).toNat else k.toNat
  l.take start ++ l.drop (start + 1)

/-- The state the write-back closure mutates: the buffer lines, the
instance's text marker (`none` models `textMarker === undefined` as
well as `textMarker.find() === false`, i.e. a cleared binding), and
the registry `tables`. -/
structure WBState where
  buffer : List String
  marker : Option (Nat × Nat)
  tables : List TableInst
deriving DecidableEq, Repr

/-- `cm.replaceRange(lines, {line: f, ch: 0}, {line: t, ch: len})`:
replace the whole lines `f..t` with the given lines. -/
def replaceLines (buf : List String) (f t : Nat) (repl : List String) : List String :=
  buf.take f ++ repl ++ buf.drop (t + 1)

/-- The `onBlur` write-back closure (source lines 316–342): bail out
when the binding no longer resolves; otherwise look the instance up in
the registry, strip one trailing character from the serialization,
replace the bound range, clear the marker, and run
`if (found) tables.splice(found, 1)` — note the JavaScript truthiness
of `found`.  Total: the model never raises. -/
def onBlur (st : WBState) (t : TableInst) : WBState :=
  match st.marker with
  | none => st
  | some (f, to_) =>
    let found := jsIndexOf st.tables t
    let md := t.md.dropRight 1
    let buffer' := replaceLines st.buffer f to_ (md.splitOn "\n")
    let tables' := if found ≠ 0 then jsSplice1 st.tables found else st.tables
    { buffer := buffer', marker := none, tables := tables' }

/-- The `markdownInsertTable` command (source lines 142–145): insert
the literal blank 2×2 table at the cursor. -/
def markdownInsertTable : String := "| | |\n| | |\n"

/-- Pairwise line-disjointness of two spans. -/
def spanDisjoint (a b : Span) : Bool :=
  decide (a.last < b.first) || decide (b.last < a.first)

/-- All spans in the list are pairwise line-disjoint. -/
def pairwiseDisjoint : List Span → Bool
  | [] => true
  | x :: xs => xs.all (spanDisjoint x) && pairwiseDisjoint xs

/-! ## Concrete environments used as witnesses and counterexamples -/

/-- An environment with everything markdown-mode, no pre-existing
markers, all constructions succeeding, and the cursor parked at a
given line. -/
def mkEnv (doc : List String) (hm : String → Option TableType)
    (cursor : Nat) (vto : Nat) : Env :=
  { doc := doc
    modeAt := fun _ _ => mdMode
    headingMatch := hm
    cursorLine := cursor
    initMarks := []
    constructOk := fun _ _ _ => true
    vfrom := 0
    vto := vto }

/-- A grid table whose body is a single all-dash line: a 2-line span
with an all-dash second line that the Setext guard does not cover. -/
def envGridDash : Env :=
  mkEnv ["+-+-+", "-----", ""]
    (fun s =>
      if s = "+-+-+" then some TableType.grid
      else if s = "-----" then some TableType.simple
      else none)
    99 3

/-- A headless simple table whose construction fails, immediately
followed by a pipe table sharing its last line: the second candidate
passes the validator although it overlaps the first. -/
def envOverlap : Env :=
  { mkEnv ["a a", "b b", "|-|-|", ""]
      (fun s =>
        if s = "a a" then some TableType.simple
        else if s = "b b" then some TableType.simple
        else if s = "|-|-|" then some TableType.pipe
        else none)
      99 4 with
    constructOk := fun f l _ => !(f == 0 && l == 1) }

/-- A pipe table under the cursor. -/
def envCursor : Env :=
  { mkEnv ["h h", "|-|-|", "x", ""]
      (fun s => if s = "|-|-|" then some TableType.pipe else none)
      1 4 with cursorLine := 1 }

/-- A pipe table whose header row is the closing delimiter of a YAML
frontmatter: the mode at the start of `firstLine` is not markdown. -/
def envYaml : Env :=
  { mkEnv ["---", "|-|-|", "x", ""]
      (fun s =>
        if s = "|-|-|" then some TableType.pipe
        else if s = "---" then some TableType.grid
        else none)
      99 4 with
    modeAt := fun i _ => if i = 0 then "yaml" else mdMode }

/-- A grid table whose heading line sits at the very end of the
viewport range (`vto`): line 1 heads a table but only lines `< 1` are
scanned. -/
def envBeyond : Env :=
  { mkEnv ["x", "+-+-+", "a", ""]
      (fun s => if s = "+-+-+" then some TableType.grid else none)
      99 1 with vfrom := 0 }

/-- The same document with the viewport extended by one line: the
heading is scanned, and the detected span runs past the viewport. -/
def envBeyond2 : Env :=
  { envBeyond with vto := 2 }

/-! ## Inversion lemmas for one loop iteration -/

theorem step_guarded_inv (env : Env) (i : Nat) (marks : List (Nat × Nat)) (s : Span)
    (h : step env i marks = StepOut.guarded s) :
    detectAt env i = some s
      ∧ ¬(s.first ≤ env.cursorLine ∧ env.cursorLine ≤ s.last)
      ∧ hasMark marks s.first s.last = false
      ∧ env.modeAt s.first 0 = mdMode ∧ env.modeAt s.last 0 = mdMode
      ∧ setextGuard env s = true := by
  unfold step at h
  rcases hd : detectAt env i with _ | s0 <;> rw [hd] at h
  · simp at h
  · dsimp only at h
    split_ifs at h with h1 h2 h3 h4 <;> simp_all

theorem step_failed_inv (env : Env) (i : Nat) (marks : List (Nat × Nat)) (s : Span)
    (h : step env i marks = StepOut.failed s) :
    detectAt env i = some s
      ∧ ¬(s.first ≤ env.cursorLine ∧ env.cursorLine ≤ s.last)
      ∧ hasMark marks s.first s.last = false
      ∧ env.modeAt s.first 0 = mdMode ∧ env.modeAt s.last 0 = mdMode
      ∧ setextGuard env s = false
      ∧ env.constructOk s.first s.last s.ttype = false := by
  unfold step at h
  rcases hd : detectAt env i with _ | s0 <;> rw [hd] at h
  · simp at h
  · dsimp only at h
    split_ifs at h with h1 h2 h3 h4 h5 <;> simp_all

theorem step_converted_inv (env : Env) (i : Nat) (marks : List (Nat × Nat)) (s : Span)
    (h : step env i marks = StepOut.converted s) :
    detectAt env i = some s
      ∧ ¬(s.first ≤ env.cursorLine ∧ env.cursorLine ≤ s.last)
      ∧ hasMark marks s.first s.last = false
      ∧ env.modeAt s.first 0 = mdMode ∧ env.modeAt s.last 0 = mdMode
      ∧ setextGuard env s = false
      ∧ env.constructOk s.first s.last s.ttype = true := by
  unfold step at h
  rcases hd : detectAt env i with _ | s0 <;> rw [hd] at h
  · simp at h
  · dsimp only at h
    split_ifs at h with h1 h2 h3 h4 h5 <;> simp_all

/-! ## Invariants of the scan loop -/

theorem hasMark_cons (m : Nat × Nat) (marks : List (Nat × Nat)) (f l : Nat) :
    hasMark (m :: marks) f l = (marksOverlap m f l || hasMark marks f l) := rfl

/-- Every span in the `validated` list of a scan passed the cursor
check and the boundary-mode checks. -/
theorem scan_validated_inv (env : Env) :
    ∀ fuel i marks s, s ∈ (scanFrom env fuel i marks).validated →
      ¬(s.first ≤ env.cursorLine ∧ env.cursorLine ≤ s.last)
        ∧ env.modeAt s.first 0 = mdMode ∧ env.modeAt s.last 0 = mdMode := by
  intro fuel
  induction fuel with
  | zero =>
    intro i marks s h
    simp [scanFrom, PassResult.empty] at h
  | succ n ih =>
    intro i marks s h
    rw [scanFrom] at h
    by_cases hv : i < env.vto
    · rw [if_pos hv] at h
      cases hstep : step env i marks <;> rw [hstep] at h
      next => exact ih _ _ _ h
      next s0 => exact ih _ _ _ h
      next s0 =>
        simp only [List.mem_cons] at h
        rcases h with rfl | h
        · obtain ⟨_, hc, _, hm1, hm2, _⟩ := step_guarded_inv env i marks s hstep
          exact ⟨hc, hm1, hm2⟩
        · exact ih _ _ _ h
      next s0 =>
        simp only [List.mem_cons] at h
        rcases h with rfl | h
        · obtain ⟨_, hc, _, hm1, hm2, _⟩ := step_failed_inv env i marks s hstep
          exact ⟨hc, hm1, hm2⟩
        · exact ih _ _ _ h
      next s0 =>
        simp only [List.mem_cons] at h
        rcases h with rfl | h
        · obtain ⟨_, hc, _, hm1, hm2, _⟩ := step_converted_inv env i marks s hstep
          exact ⟨hc, hm1, hm2⟩
        · exact ih _ _ _ h
    · rw [if_neg hv] at h
      simp [PassResult.empty] at h

/-- Every span whose construction is attempted passed the validator
and the Setext guard. -/
theorem scan_attempted_inv (env : Env) :
    ∀ fuel i marks s, s ∈ (scanFrom env fuel i marks).attempted →
      ¬(s.first ≤ env.cursorLine ∧ env.cursorLine ≤ s.last)
        ∧ env.modeAt s.first 0 = mdMode ∧ env.modeAt s.last 0 = mdMode
        ∧ setextGuard env s = false := by
  intro fuel
  induction fuel with
  | zero =>
    intro i marks s h
    simp [scanFrom, PassResult.empty] at h
  | succ n ih =>
    intro i marks s h
    rw [scanFrom] at h
    by_cases hv : i < env.vto
    · rw [if_pos hv] at h
      cases hstep : step env i marks <;> rw [hstep] at h
      next => exact ih _ _ _ h
      next s0 => exact ih _ _ _ h
      next s0 => exact ih _ _ _ h
      next s0 =>
        simp only [List.mem_cons] at h
        rcases h with rfl | h
        · obtain ⟨_, hc, _, hm1, hm2, hg, _⟩ := step_failed_inv env i marks s hstep
          exact ⟨hc, hm1, hm2, hg⟩
        · exact ih _ _ _ h
      next s0 =>
        simp only [List.mem_cons] at h
        rcases h with rfl | h
        · obtain ⟨_, hc, _, hm1, hm2, hg, _⟩ := step_converted_inv env i marks s hstep
          exact ⟨hc, hm1, hm2, hg⟩
        · exact ih _ _ _ h
    · rw [if_neg hv] at h
      simp [PassResult.empty] at h

/-- Every converted span passed every check, its construction
succeeded, and it overlaps none of the markers present when the scan
started. -/
theorem scan_converted_inv (env : Env) :
    ∀ fuel i marks s, s ∈ (scanFrom env fuel i marks).converted →
      ¬(s.first ≤ env.cursorLine ∧ env.cursorLine ≤ s.last)
        ∧ env.modeAt s.first 0 = mdMode ∧ env.modeAt s.last 0 = mdMode
        ∧ setextGuard env s = false
        ∧ env.constructOk s.first s.last s.ttype = true
        ∧ hasMark marks s.first s.last = false := by
  intro fuel
  induction fuel with
  | zero =>
    intro i marks s h
    simp [scanFrom, PassResult.empty] at h
  | succ n ih =>
    intro i marks s h
    rw [scanFrom] at h
    by_cases hv : i < env.vto
    · rw [if_pos hv] at h
      cases hstep : step env i marks <;> rw [hstep] at h
      next => exact ih _ _ _ h
      next s0 => exact ih _ _ _ h
      next s0 => exact ih _ _ _ h
      next s0 => exact ih _ _ _ h
      next s0 =>
        simp only [List.mem_cons] at h
        rcases h with rfl | h
        · obtain ⟨_, hc, hmk, hm1, hm2, hg, hok⟩ := step_converted_inv env i marks s hstep
          exact ⟨hc, hm1, hm2, hg, hok, hmk⟩
        · obtain ⟨hc, hm1, hm2, hg, hok, hmk⟩ := ih _ _ _ h
          rw [hasMark_cons] at hmk
          exact ⟨hc, hm1, hm2, hg, hok, by
            cases ho : hasMark marks s.first s.last <;> simp_all⟩
    · rw [if_neg hv] at h
      simp [PassResult.empty] at h

/-- `attempted` is a sublist of `validated`, memberwise. -/
theorem scan_attempted_sub_validated (env : Env) :
    ∀ fuel i marks s, s ∈ (scanFrom env fuel i marks).attempted →
      s ∈ (scanFrom env fuel i marks).validated := by
  intro fuel
  induction fuel with
  | zero =>
    intro i marks s h
    simp [scanFrom, PassResult.empty] at h
  | succ n ih =>
    intro i marks s h
    rw [scanFrom] at h ⊢
    by_cases hv : i < env.vto
    · rw [if_pos hv] at h ⊢
      cases hstep : step env i marks <;> rw [hstep] at h
      next => exact ih _ _ _ h
      next s0 => exact ih _ _ _ h
      next s0 =>
        exact List.mem_cons_of_mem _ (ih _ _ _ h)
      next s0 =>
        simp only [List.mem_cons] at h ⊢
        rcases h with rfl | h
        · exact Or.inl rfl
        · exact Or.inr (ih _ _ _ h)
      next s0 =>
        simp only [List.mem_cons] at h ⊢
        rcases h with rfl | h
        · exact Or.inl rfl
        · exact Or.inr (ih _ _ _ h)
    · rw [if_neg hv] at h ⊢
      exact h

/-- `converted` is a sublist of `attempted`, memberwise. -/
theorem scan_converted_sub_attempted (env : Env) :
    ∀ fuel i marks s, s ∈ (scanFrom env fuel i marks).converted →
      s ∈ (scanFrom env fuel i marks).attempted := by
  intro fuel
  induction fuel with
  | zero =>
    intro i marks s h
    simp [scanFrom, PassResult.empty] at h
  | succ n ih =>
    intro i marks s h
    rw [scanFrom] at h ⊢
    by_cases hv : i < env.vto
    · rw [if_pos hv] at h ⊢
      cases hstep : step env i marks <;> rw [hstep] at h
      next => exact ih _ _ _ h
      next s0 => exact ih _ _ _ h
      next s0 => exact ih _ _ _ h
      next s0 =>
        exact List.mem_cons_of_mem _ (ih _ _ _ h)
      next s0 =>
        simp only [List.mem_cons] at h ⊢
        rcases h with rfl | h
        · exact Or.inl rfl
        · exact Or.inr (ih _ _ _ h)
    · rw [if_neg hv] at h ⊢
      exact h

/-- The converted spans of a scan are pairwise line-disjoint: each
conversion installs a marker over its span, and `findMarks` rejects
any later candidate overlapping it. -/
theorem scan_converted_disjoint (env : Env) :
    ∀ fuel i marks, pairwiseDisjoint (scanFrom env fuel i marks).converted = true := by
  intro fuel
  induction fuel with
  | zero =>
    intro i marks
    simp [scanFrom, PassResult.empty, pairwiseDisjoint]
  | succ n ih =>
    intro i marks
    rw [scanFrom]
    by_cases hv : i < env.vto
    · rw [if_pos hv]
      cases hstep : step env i marks
      next => exact ih _ _
      next s0 => exact ih _ _
      next s0 => exact ih _ _
      next s0 => exact ih _ _
      next s0 =>
        show pairwiseDisjoint (s0 :: (scanFrom env n (s0.last + 1)
          ((s0.first, s0.last) :: marks)).converted) = true
        rw [pairwiseDisjoint]
        rw [Bool.and_eq_true]
        constructor
        · rw [List.all_eq_true]
          intro t ht
          obtain ⟨_, _, _, _, _, hmk⟩ :=
            scan_converted_inv env n (s0.last + 1) ((s0.first, s0.last) :: marks) t ht
          rw [hasMark_cons, Bool.or_eq_false_iff] at hmk
          have := hmk.1
          simp only [marksOverlap, Bool.and_eq_false_iff, decide_eq_false_iff_not,
            not_le] at this
          simp only [spanDisjoint, Bool.or_eq_true, decide_eq_true_eq]
          omega
        · exact ih _ _
    · rw [if_neg hv]
      simp [PassResult.empty, pairwiseDisjoint]

/-- If no line of `[i, vto)` yields a detected candidate, the scan
produces nothing — candidates are only ever probed inside the
viewport's index range. -/
theorem scan_no_detect (env : Env) :
    ∀ fuel i marks, (∀ k, i ≤ k → k < env.vto → detectAt env k = none) →
      scanFrom env fuel i marks = PassResult.empty := by
  intro fuel
  induction fuel with
  | zero => intro i marks _; rw [scanFrom]
  | succ n ih =>
    intro i marks hnone
    rw [scanFrom]
    by_cases hv : i < env.vto
    · rw [if_pos hv]
      have hstep : step env i marks = StepOut.noCand := by
        unfold step
        rw [hnone i (Nat.le_refl i) hv]
      rw [hstep]
      exact ih (i + 1) marks (fun k hk1 hk2 => hnone k (by omega) hk2)
    · rw [if_neg hv]

/-! ## Characterizations of the boundary scans -/

/-- `firstBlankFrom` finds `b` when `b` is the first blank line at or
after `start`. -/
theorem firstBlankFrom_min (doc : List String) :
    ∀ n start b, b - start ≤ n → start ≤ b → b < doc.length →
      (∀ u, doc.get? b = some u → blank u = true) →
      (∀ k u, start ≤ k → k < b → doc.get? k = some u → blank u = false) →
      firstBlankFrom doc start = some b := by
  intro n
  induction n with
  | zero =>
    intro start b hn hsb hb hblank _
    have hstart : start = b := by omega
    subst hstart
    have hb1 := hblank (doc.get ⟨start, hb⟩) (List.get?_eq_get hb)
    rw [firstBlankFrom_eq, dif_pos hb]
    simp at hb1
    simp [hb1]
  | succ n ih =>
    intro start b hn hsb hb hblank hmin
    have hs : start < doc.length := by omega
    rw [firstBlankFrom_eq, dif_pos hs]
    by_cases heq : start = b
    · subst heq
      have hb1 := hblank (doc.get ⟨start, hs⟩) (List.get?_eq_get hs)
      simp at hb1
      simp [hb1]
    · have hlt : start < b := by omega
      have hb1 := hmin start (doc.get ⟨start, hs⟩) (Nat.le_refl start) hlt
        (List.get?_eq_get hs)
      simp at hb1
      simp [hb1]
      exact ih (start + 1) b (by omega) (by omega) hb hblank
        (fun k u hk1 hk2 hk3 => hmin k u (by omega) hk2 hk3)

/-- `simpleEndFrom` finds `e` when `e` is the first line at or after
`start` re-matching alternative 1, with no blank line in between and
`e` itself non-blank. -/
theorem simpleEndFrom_found (env : Env) :
    ∀ n start e, e - start ≤ n → start ≤ e → e < env.doc.length →
      (∀ u, env.doc.get? e = some u →
        blank u = false ∧ env.headingMatch u = some TableType.simple) →
      (∀ k u, start ≤ k → k < e → env.doc.get? k = some u →
        blank u = false ∧ env.headingMatch u ≠ some TableType.simple) →
      simpleEndFrom env start = some e := by
  intro n
  induction n with
  | zero =>
    intro start e hn hse he hmtch _
    have hstart : start = e := by omega
    subst hstart
    obtain ⟨hb, hm⟩ := hmtch (env.doc.get ⟨start, he⟩) (List.get?_eq_get he)
    rw [simpleEndFrom_eq, dif_pos he]
    simp at hb hm
    simp [hb, hm]
  | succ n ih =>
    intro start e hn hse he hmtch hmin
    have hs : start < env.doc.length := by omega
    rw [simpleEndFrom_eq, dif_pos hs]
    by_cases heq : start = e
    · subst heq
      obtain ⟨hb, hm⟩ := hmtch (env.doc.get ⟨start, hs⟩) (List.get?_eq_get hs)
      simp at hb hm
      simp [hb, hm]
    · have hlt : start < e := by omega
      obtain ⟨hb, hm⟩ := hmin start (env.doc.get ⟨start, hs⟩)
        (Nat.le_refl start) hlt (List.get?_eq_get hs)
      simp at hb hm
      simp [hb, hm]
      exact ih (start + 1) e (by omega) (by omega) he hmtch
        (fun k u hk1 hk2 hk3 => hmin k u (by omega) hk2 hk3)

/-- `simpleEndFrom` aborts when a blank line arrives before any line
re-matching alternative 1. -/
theorem simpleEndFrom_abort (env : Env) :
    ∀ n start e, e - start ≤ n → start ≤ e → e < env.doc.length →
      (∀ u, env.doc.get? e = some u → blank u = true) →
      (∀ k u, start ≤ k → k < e → env.doc.get? k = some u →
        blank u = false ∧ env.headingMatch u ≠ some TableType.simple) →
      simpleEndFrom env start = none := by
  intro n
  induction n with
  | zero =>
    intro start e hn hse he hblank _
    have hstart : start = e := by omega
    subst hstart
    have hb1 := hblank (env.doc.get ⟨start, he⟩) (List.get?_eq_get he)
    rw [simpleEndFrom_eq, dif_pos he]
    simp at hb1
    simp [hb1]
  | succ n ih =>
    intro start e hn hse he hblank hmin
    have hs : start < env.doc.length := by omega
    rw [simpleEndFrom_eq, dif_pos hs]
    by_cases heq : start = e
    · subst heq
      have hb1 := hblank (env.doc.get ⟨start, hs⟩) (List.get?_eq_get hs)
      simp at hb1
      simp [hb1]
    · have hlt : start < e := by omega
      obtain ⟨hb, hm⟩ := hmin start (env.doc.get ⟨start, hs⟩)
        (Nat.le_refl start) hlt (List.get?_eq_get hs)
      simp at hb hm
      simp [hb, hm]
      exact ih (start + 1) e (by omega) (by omega) he hblank
        (fun k u hk1 hk2 hk3 => hmin k u (by omega) hk2 hk3)

/-! ## Claim theorems -/

/-- C1 (counterexample).  The claim says a detected candidate span of
exactly 2 lines whose second line is all dashes is never converted,
regardless of dialect.  In `envGridDash` the grid candidate `[0, 1]`
is a 2-line span whose second line `"-----"` is all dashes, yet its
conversion is attempted and succeeds: the guard at source line 303
only fires for the simple dialect and only for spans of more than 2
lines. -/
theorem twoLineDashSpan_converted :
    (runPass envGridDash).attempted = [⟨0, 1, TableType.grid⟩]
    ∧ (runPass envGridDash).converted = [⟨0, 1, TableType.grid⟩]
    ∧ allDashes (envGridDash.lineD 1) = true := by
  refine ⟨by decide, by decide, by decide⟩

/-- C1 (amended).  The Setext-heading guard rejects exactly the
simple-dialect candidates whose span is longer than 2 lines and whose
second line is composed solely of dashes: no span whose construction
is attempted is a simple span of more than 2 lines with an all-dash
second line. -/
theorem setextGuard_rejects_long_simple (env : Env) (s : Span)
    (h : s ∈ (runPass env).attempted) :
    ¬(s.ttype = TableType.simple ∧ s.first + 2 ≤ s.last
        ∧ allDashes (env.lineD (s.first + 1)) = true) := by
  rw [runPass] at h
  obtain ⟨_, _, _, hg⟩ := scan_attempted_inv env _ _ _ s h
  rintro ⟨h1, h2, h3⟩
  rw [setextGuard] at hg
  simp [h1, h2, h3] at hg

/-- C1 (witness for the amended claim): the simple headerless span
`[0, 1]` of `envOverlap` reaches construction, so by the amended claim
it is not a long all-dash-bodied simple span. -/
theorem setextGuard_rejects_long_simple_witness :
    ¬((⟨0, 1, TableType.simple⟩ : Span).ttype = TableType.simple
        ∧ (⟨0, 1, TableType.simple⟩ : Span).first + 2 ≤ (⟨0, 1, TableType.simple⟩ : Span).last
        ∧ allDashes (envOverlap.lineD ((⟨0, 1, TableType.simple⟩ : Span).first + 1)) = true) :=
  setextGuard_rejects_long_simple envOverlap ⟨0, 1, TableType.simple⟩ (by decide)

/-- C2 (code bug).  The write-back reaction is supposed to remove
exactly the firing instance from the registry.  But the source guards
the removal with `if (found)` where `found = tables.indexOf(t)`: when
the instance sits at index 0 the guard is falsy and nothing is
removed, and when the instance is missing (`found === -1`) the guard
is truthy and `splice(-1, 1)` removes the **last** element instead.
Both evaluations below exhibit the divergence on a live binding. -/
theorem onBlur_indexZero_not_removed :
    (onBlur ⟨["a", "b"], some (0, 1), [⟨0, "x\n"⟩]⟩ ⟨0, "x\n"⟩).tables = [⟨0, "x\n"⟩]
    ∧ (onBlur ⟨["a", "b"], some (0, 1), [⟨1, "y\n"⟩]⟩ ⟨0, "x\n"⟩).tables = [] := by
  refine ⟨by decide, by decide⟩

/-- C3.  If the write-back reaction fires after the binding was
already cleared (`textMarker === undefined || textMarker.find() ===
false`, modelled as `marker = none`), the reaction is a no-op: buffer,
binding and registry are all unchanged, and the model is total (no
error is raised). -/
theorem onBlur_stale_noop (st : WBState) (t : TableInst) (h : st.marker = none) :
    onBlur st t = st := by
  unfold onBlur
  rw [h]

/-- C3 (witness). -/
theorem onBlur_stale_noop_witness :
    onBlur ⟨["a"], none, [⟨0, "x\n"⟩]⟩ ⟨0, "x\n"⟩ = ⟨["a"], none, [⟨0, "x\n"⟩]⟩ :=
  onBlur_stale_noop ⟨["a"], none, [⟨0, "x\n"⟩]⟩ ⟨0, "x\n"⟩ rfl

/-- C4 (counterexample).  The claim says the spans passing the
validator in one pass are pairwise non-overlapping.  In `envOverlap`
the headerless simple span `[0, 1]` passes the validator but its
construction fails, so no marker is installed; the pipe candidate at
the next scanned line then also passes the validator with span
`[1, 2]`, sharing line 1 with the first span. -/
theorem validated_overlap_example :
    (runPass envOverlap).validated =
      [⟨0, 1, TableType.simple⟩, ⟨1, 2, TableType.pipe⟩]
    ∧ pairwiseDisjoint (runPass envOverlap).validated = false := by
  refine ⟨by decide, by decide⟩

/-- C4 (amended).  The spans actually converted in a single pass
(construction succeeded, marker installed, instance registered) are
pairwise non-overlapping: each conversion's marker makes `findMarks`
reject every later overlapping candidate.  Validated-but-failed spans
may overlap a later validated span (see the counterexample). -/
theorem converted_pairwise_disjoint (env : Env) :
    pairwiseDisjoint (runPass env).converted = true := by
  rw [runPass]
  exact scan_converted_disjoint env _ _ _

/-- C5.  A candidate span containing the primary cursor's line is
rejected on that pass: it never passes the validator, never reaches
construction, and is never bound or registered. -/
theorem cursor_span_never_processed (env : Env) (s : Span)
    (h1 : s.first ≤ env.cursorLine) (h2 : env.cursorLine ≤ s.last) :
    s ∉ (runPass env).validated ∧ s ∉ (runPass env).attempted
      ∧ s ∉ (runPass env).converted := by
  rw [runPass]
  refine ⟨fun hmem => ?_, fun hmem => ?_, fun hmem => ?_⟩
  · exact (scan_validated_inv env _ _ _ s hmem).1 ⟨h1, h2⟩
  · exact (scan_validated_inv env _ _ _ s
      (scan_attempted_sub_validated env _ _ _ s hmem)).1 ⟨h1, h2⟩
  · exact (scan_validated_inv env _ _ _ s
      (scan_attempted_sub_validated env _ _ _ s
        (scan_converted_sub_attempted env _ _ _ s hmem))).1 ⟨h1, h2⟩

/-- C5 (witness): in `envCursor` the pipe span `[0, 2]` contains the
cursor line 1 and is therefore not processed. -/
theorem cursor_span_never_processed_witness :
    (⟨0, 2, TableType.pipe⟩ : Span) ∉ (runPass envCursor).validated
    ∧ (⟨0, 2, TableType.pipe⟩ : Span) ∉ (runPass envCursor).attempted
    ∧ (⟨0, 2, TableType.pipe⟩ : Span) ∉ (runPass envCursor).converted :=
  cursor_span_never_processed envCursor ⟨0, 2, TableType.pipe⟩ (by decide) (by decide)

/-- C6.  If the syntax mode at character 0 of `firstLine` or at
character 0 of `lastLine` is not the markdown mode, the candidate
never reaches construction and is never converted. -/
theorem mode_mismatch_never_converted (env : Env) (s : Span)
    (h : env.modeAt s.first 0 ≠ mdMode ∨ env.modeAt s.last 0 ≠ mdMode) :
    s ∉ (runPass env).attempted ∧ s ∉ (runPass env).converted := by
  rw [runPass]
  refine ⟨fun hmem => ?_, fun hmem => ?_⟩
  · obtain ⟨_, hm1, hm2, _⟩ := scan_attempted_inv env _ _ _ s hmem
    rcases h with h | h
    · exact h hm1
    · exact h hm2
  · obtain ⟨_, hm1, hm2, _⟩ := scan_attempted_inv env _ _ _ s
      (scan_converted_sub_attempted env _ _ _ s hmem)
    rcases h with h | h
    · exact h hm1
    · exact h hm2

/-- C6 (witness): in `envYaml` the pipe span `[0, 2]` starts on the
frontmatter delimiter (mode `yaml` at character 0 of line 0) and is
never attempted or converted. -/
theorem mode_mismatch_never_converted_witness :
    (⟨0, 2, TableType.pipe⟩ : Span) ∉ (runPass envYaml).attempted
    ∧ (⟨0, 2, TableType.pipe⟩ : Span) ∉ (runPass envYaml).converted :=
  mode_mismatch_never_converted envYaml ⟨0, 2, TableType.pipe⟩ (Or.inl (by decide))

/-- C9.  When construction of a validated span fails, no marker is
installed and nothing is registered for it (the `converted`
observables all have succeeding constructions), and the loop resumes
at the line after the span with the marker set and registry untouched
— the failure is caught and never propagates (the model is total). -/
theorem construction_failure_no_partial_state (env : Env) :
    (∀ fuel i marks s, s ∈ (scanFrom env fuel i marks).converted →
      env.constructOk s.first s.last s.ttype = true)
    ∧ (∀ fuel i marks s, i < env.vto → detectAt env i = some s →
        ¬(s.first ≤ env.cursorLine ∧ env.cursorLine ≤ s.last) →
        hasMark marks s.first s.last = false →
        env.modeAt s.first 0 = mdMode → env.modeAt s.last 0 = mdMode →
        setextGuard env s = false →
        env.constructOk s.first s.last s.ttype = false →
        scanFrom env (fuel + 1) i marks =
          { validated := s :: (scanFrom env fuel (s.last + 1) marks).validated,
            attempted := s :: (scanFrom env fuel (s.last + 1) marks).attempted,
            converted := (scanFrom env fuel (s.last + 1) marks).converted }) := by
  constructor
  · intro fuel i marks s h
    exact (scan_converted_inv env fuel i marks s h).2.2.2.2.1
  · intro fuel i marks s hv hdet hcur hmk hm1 hm2 hg hok
    have hstep : step env i marks = StepOut.failed s := by
      unfold step
      simp only [hdet]
      rw [if_neg hcur, if_neg (by simp [hmk]), if_neg (by simp [hm1, hm2]),
        if_neg (by simp [hg]), if_neg (by simp [hok])]
    rw [scanFrom, if_pos hv, hstep]

/-- C9 (witness): in `envOverlap` the validated span `[0, 1]` fails
construction at scan position 0; the pass records it as validated and
attempted, converts nothing for it, and resumes at line 2 with the
marker list unchanged. -/
theorem construction_failure_no_partial_state_witness :
    scanFrom envOverlap 4 0 [] =
      { validated := (⟨0, 1, TableType.simple⟩ : Span) ::
          (scanFrom envOverlap 3 2 []).validated,
        attempted := (⟨0, 1, TableType.simple⟩ : Span) ::
          (scanFrom envOverlap 3 2 []).attempted,
        converted := (scanFrom envOverlap 3 2 []).converted } :=
  (construction_failure_no_partial_state envOverlap).2 3 0 []
    ⟨0, 1, TableType.simple⟩ (by decide) (by decide) (by decide) (by decide)
    (by decide) (by decide) (by decide) (by decide)

/-- C10.  Heading candidates are probed only at indices
`vfrom ≤ i < vto` (a document whose only table heading sits at line
`vto` yields an empty pass), yet once a candidate matches, the
boundary scan runs to the end of the whole document, so a detected
span can extend past the viewport (`envBeyond2` converts `[1, 2]`
although its viewport ends at line 2 exclusive). -/
theorem viewport_scan_bounds :
    (∀ env, (∀ i, env.vfrom ≤ i → i < env.vto → detectAt env i = none) →
        runPass env = PassResult.empty)
    ∧ (detectAt envBeyond 1 = some ⟨1, 2, TableType.grid⟩
        ∧ envBeyond.vto = 1
        ∧ runPass envBeyond = PassResult.empty)
    ∧ ((runPass envBeyond2).converted = [⟨1, 2, TableType.grid⟩]
        ∧ envBeyond2.vto ≤ 2) := by
  refine ⟨?_, ⟨by decide, by decide, by decide⟩, by decide, by decide⟩
  intro env h
  rw [runPass]
  exact scan_no_detect env _ env.vfrom env.initMarks
    (fun k hk1 hk2 => h k hk1 hk2)

/-- C10 (witness): the universal part applied to `envBeyond`, whose
only heading line is exactly the end of the viewport range. -/
theorem viewport_scan_bounds_witness :
    runPass envBeyond = PassResult.empty :=
  viewport_scan_bounds.1 envBeyond (fun i h1 h2 => by
    have h2' : i < 1 := h2
    have hi : i = 0 := by omega
    subst hi
    decide)

/-- C7.  For a line `i` whose heading match is alternative 3 (pipe
separator), scanned in markdown mode: if a non-blank header row
precedes it and `b` is the first blank line at or after `i` (the
separator row itself being non-blank), the detected candidate is
exactly `⟨i - 1, b - 1, pipe⟩`; and if `i` is the first line, or the
preceding line is blank, no pipe candidate is produced at `i`. -/
theorem pipe_span_detection (env : Env) (i b : Nat) (s : String)
    (hmode : env.modeAt i 0 = mdMode)
    (hline : env.getLine i = some s)
    (hmatch : env.headingMatch s = some TableType.pipe) :
    ((∀ p, 1 ≤ i → env.getLine (i - 1) = some p → blank p = false →
        blank s = false → i ≤ b → b < env.doc.length →
        (∀ u, env.doc.get? b = some u → blank u = true) →
        (∀ k u, i ≤ k → k < b → env.doc.get? k = some u → blank u = false) →
        detectAt env i = some ⟨i - 1, b - 1, TableType.pipe⟩)
     ∧ (i = 0 → detectAt env i = none)
     ∧ (∀ p, 1 ≤ i → env.getLine (i - 1) = some p → blank p = true →
        detectAt env i = none)) := by
  have hget : env.doc.get? i = some s := hline
  refine ⟨?_, ?_, ?_⟩
  · intro p hi hp hbp hbs hib hblt hblank hmin
    have hgp : env.doc.get? (i - 1) = some p := hp
    have hfb : firstBlankFrom env.doc i = some b :=
      firstBlankFrom_min env.doc (b - i) i b (Nat.le_refl _) hib hblt hblank hmin
    have hib2 : i < b := by
      rcases Nat.lt_or_ge i b with h | h
      · exact h
      · have hbi : b = i := by omega
        subst hbi
        have := hblank s hget
        rw [this] at hbs
        exact absurd hbs (by simp)
    have hprev : env.prevBlankOrFirst i = false := by
      unfold Env.prevBlankOrFirst Env.lineD
      rw [hgp]
      have h0 : (i == 0) = false := by
        simp only [beq_eq_false_iff_ne, ne_eq]
        omega
      rw [h0]
      simp [hbp]
    have hc : candidateAt env i = some ⟨i - 1, b - 1, TableType.pipe⟩ := by
      simp [candidateAt, hline, hmatch, hprev, hfb]
    simp only [detectAt, hc]
    rw [if_neg (by simp [hmode])]
    rw [if_neg (by omega : ¬(i - 1 = b - 1))]
  · rintro rfl
    have hc : candidateAt env 0 = none := by
      simp [candidateAt, hline, hmatch, Env.prevBlankOrFirst]
    simp [detectAt, hc]
  · intro p hi hp hbp
    have hgp : env.doc.get? (i - 1) = some p := hp
    have hprev : env.prevBlankOrFirst i = true := by
      unfold Env.prevBlankOrFirst Env.lineD
      rw [hgp]
      simp [hbp]
    have hc : candidateAt env i = none := by
      simp [candidateAt, hline, hmatch, hprev]
    simp [detectAt, hc]

/-- C7 (witness): in `envCursor` (document
`["h h", "|-|-|", "x", ""]`) the separator at line 1 with non-blank
header `"h h"` above and first blank line at 3 yields exactly the
candidate `⟨0, 2, pipe⟩`. -/
theorem pipe_span_detection_witness :
    detectAt envCursor 1 = some ⟨0, 2, TableType.pipe⟩ :=
  (pipe_span_detection envCursor 1 3 "|-|-|" (by decide) (by decide)
    (by decide)).1 "h h" (by decide) (by decide) (by decide) (by decide)
    (by decide) (by decide)
    (fun u hu => by
      have : u = "" := by
        have h3 : envCursor.doc.get? 3 = some "" := by decide
        rw [h3] at hu
        exact (Option.some.injEq _ _).mp hu.symm
      subst this
      decide)
    (fun k u hk1 hk2 hu => by
      have hk : k = 1 ∨ k = 2 := by omega
      rcases hk with rfl | rfl
      · have h1 : envCursor.doc.get? 1 = some "|-|-|" := by decide
        rw [h1] at hu
        have : u = "|-|-|" := (Option.some.injEq _ _).mp hu.symm
        subst this
        decide
      · have h2 : envCursor.doc.get? 2 = some "x" := by decide
        rw [h2] at hu
        have : u = "x" := (Option.some.injEq _ _).mp hu.symm
        subst this
        decide)

/-- C8.  For a simple-dialect candidate at line `i` (alternative 1
matched, next line exists and is non-blank), scanned in markdown
mode: in the headerless case (`i` first line or preceding line blank)
the candidate is `⟨i, j, simple⟩` where `j > i` is the first
subsequent line re-matching alternative 1, and no candidate is
produced when a blank line occurs before any such re-match; in the
headed case the candidate is `⟨i - 1, b - 1, simple⟩` where `b` is
the first blank line at or after `i`. -/
theorem simple_span_detection (env : Env) (i : Nat) (s nl : String)
    (hmode : env.modeAt i 0 = mdMode)
    (hline : env.getLine i = some s)
    (hmatch : env.headingMatch s = some TableType.simple)
    (hnext : env.getLine (i + 1) = some nl)
    (hnb : blank nl = false) :
    ((env.prevBlankOrFirst i = true →
       ∀ j t, i < j → env.getLine j = some t → blank t = false →
         env.headingMatch t = some TableType.simple →
         (∀ k u, i < k → k < j → env.getLine k = some u →
           blank u = false ∧ env.headingMatch u ≠ some TableType.simple) →
         detectAt env i = some ⟨i, j, TableType.simple⟩)
     ∧ (env.prevBlankOrFirst i = true →
       ∀ k t, i < k → env.getLine k = some t → blank t = true →
         (∀ m u, i < m → m < k → env.getLine m = some u →
           blank u = false ∧ env.headingMatch u ≠ some TableType.simple) →
         detectAt env i = none)
     ∧ (env.prevBlankOrFirst i = false → blank s = false →
       ∀ b, i ≤ b → b < env.doc.length →
         (∀ u, env.doc.get? b = some u → blank u = true) →
         (∀ k u, i ≤ k → k < b → env.doc.get? k = some u → blank u = false) →
         detectAt env i = some ⟨i - 1, b - 1, TableType.simple⟩)) := by
  have hget : env.doc.get? i = some s := hline
  refine ⟨?_, ?_, ?_⟩
  · intro hprev j t hij hj hbt hmt hbetween
    have hgj : env.doc.get? j = some t := hj
    obtain ⟨hjlen, -⟩ := List.get?_eq_some.mp hgj
    have hse : simpleEndFrom env (i + 1) = some j := by
      refine simpleEndFrom_found env (j - (i + 1)) (i + 1) j (Nat.le_refl _)
        (by omega) hjlen ?_ ?_
      · intro u hu
        rw [hgj] at hu
        have : u = t := (Option.some.injEq _ _).mp hu.symm
        subst this
        exact ⟨hbt, hmt⟩
      · intro k u hk1 hk2 hk3
        exact hbetween k u (by omega) hk2 hk3
    have hc : candidateAt env i = some ⟨i, j, TableType.simple⟩ := by
      simp [candidateAt, hline, hmatch, hnext, hnb, hprev, hse]
    simp only [detectAt, hc]
    rw [if_neg (by simp [hmode])]
    rw [if_neg (by omega : ¬(i = j))]
  · intro hprev k t hik hk hbt hbetween
    have hgk : env.doc.get? k = some t := hk
    obtain ⟨hklen, -⟩ := List.get?_eq_some.mp hgk
    have hse : simpleEndFrom env (i + 1) = none := by
      refine simpleEndFrom_abort env (k - (i + 1)) (i + 1) k (Nat.le_refl _)
        (by omega) hklen ?_ ?_
      · intro u hu
        rw [hgk] at hu
        have : u = t := (Option.some.injEq _ _).mp hu.symm
        subst this
        exact hbt
      · intro m u hm1 hm2 hm3
        exact hbetween m u (by omega) hm2 hm3
    have hc : candidateAt env i = none := by
      simp [candidateAt, hline, hmatch, hnext, hnb, hprev, hse]
    simp [detectAt, hc]
  · intro hprev hbs b hib hblt hblank hmin
    have hi0 : i ≠ 0 := by
      intro h
      subst h
      simp [Env.prevBlankOrFirst] at hprev
    have hfb : firstBlankFrom env.doc i = some b :=
      firstBlankFrom_min env.doc (b - i) i b (Nat.le_refl _) hib hblt hblank hmin
    have hib2 : i < b := by
      rcases Nat.lt_or_ge i b with h | h
      · exact h
      · have hbi : b = i := by omega
        subst hbi
        have := hblank s hget
        rw [this] at hbs
        exact absurd hbs (by simp)
    have hc : candidateAt env i = some ⟨i - 1, b - 1, TableType.simple⟩ := by
      simp [candidateAt, hline, hmatch, hnext, hnb, hprev, hfb]
    simp only [detectAt, hc]
    rw [if_neg (by simp [hmode])]
    rw [if_neg (by omega : ¬(i - 1 = b - 1))]

/-- C8 (witness): in `envOverlap` (document
`["a a", "b b", "|-|-|", ""]`) line 0 heads a headerless simple
table: the first re-match of alternative 1 is line 1, so the
candidate is `⟨0, 1, simple⟩`. -/
theorem simple_span_detection_witness :
    detectAt envOverlap 0 = some ⟨0, 1, TableType.simple⟩ :=
  (simple_span_detection envOverlap 0 "a a" "b b" (by decide) (by decide)
    (by decide) (by decide) (by decide)).1 (by decide) 1 "b b" (by decide)
    (by decide) (by decide) (by decide)
    (fun k u hk1 hk2 _ => by omega)

end TableRender

